import Mathlib

/-!
Verification of the color-resolution and text-layout core of the
verandah-plugin-utils crate.  The Rust sources are embedded shallowly:
strings are byte lists (`List Nat`, each entry an u8 value), `f32` values
are modelled by an exact type with NaN and signed infinities, and the
external collaborators (font byte provider, font parser, glyph rasterizer)
are parameters of the drawing functions.
-/

/-- Rgba models `image::Rgba<u8>`: four 8-bit channels. -/
structure Rgba where
  r : Nat
  g : Nat
  b : Nat
  a : Nat
deriving DecidableEq, Repr

/-- Parse a single hex digit byte to its value, `None` for invalid digits
(embeds `try_hex_digit` from colors.rs). -/

def try_hex_digit (c : Nat) : Option Nat :=
  if 48 ≤ c ∧ c ≤ 57 then some (c - 48)
  else if 65 ≤ c ∧ c ≤ 70 then some (c - 65 + 10)
  else if 97 ≤ c ∧ c ≤ 102 then some (c - 97 + 10)
  else none

/-- Parse a hex color byte string (embeds `parse_hex` from colors.rs):
requires a leading '#' (byte 35) and total byte length 4, 7 or 9. -/

def parse_hex (s : List Nat) : Option Rgba :=
  if s.head? ≠ some 35 then none
  else
    match s with
    | [_, d1, d2, d3] =>
      (try_hex_digit d1).bind fun r =>
      (try_hex_digit d2).bind fun g =>
      (try_hex_digit d3).bind fun b =>
      some ⟨r * 17, g * 17, b * 17, 0xFF⟩
    | [_, d1, d2, d3, d4, d5, d6] =>
      (try_hex_digit d1).bind fun r1 =>
      (try_hex_digit d2).bind fun r2 =>
      (try_hex_digit d3).bind fun g1 =>
      (try_hex_digit d4).bind fun g2 =>
      (try_hex_digit d5).bind fun b1 =>
      (try_hex_digit d6).bind fun b2 =>
      some ⟨r1 * 16 + r2, g1 * 16 + g2, b1 * 16 + b2, 0xFF⟩
    | [_, d1, d2, d3, d4, d5, d6, d7, d8] =>
      (try_hex_digit d1).bind fun r1 =>
      (try_hex_digit d2).bind fun r2 =>
      (try_hex_digit d3).bind fun g1 =>
      (try_hex_digit d4).bind fun g2 =>
      (try_hex_digit d5).bind fun b1 =>
      (try_hex_digit d6).bind fun b2 =>
      (try_hex_digit d7).bind fun a1 =>
      (try_hex_digit d8).bind fun a2 =>
      some ⟨r1 * 16 + r2, g1 * 16 + g2, b1 * 16 + b2, a1 * 16 + a2⟩
    | _ => none

/-- Byte-level ASCII lowercasing (embeds `u8::to_ascii_lowercase`,
used by `str::to_ascii_lowercase` in `lookup`). -/

def toAsciiLowercase (c : Nat) : Nat :=
  if 65 ≤ c ∧ c ≤ 90 then c + 32 else c

/-- Byte list of an ASCII string literal. -/

def strBytes (s : String) : List Nat :=
  s.toList.map Char.toNat

/-- CSS named colors as hex strings (embeds `NAMED_COLOR_DATA` from colors.rs). -/

def NAMED_COLOR_DATA : List (String × String) := [
  ("aliceblue",            "#F0F8FF"),
  ("antiquewhite",         "#FAEBD7"),
  ("aqua",                 "#00FFFF"),
  ("aquamarine",           "#7FFFD4"),
  ("azure",                "#F0FFFF"),
  ("beige",                "#F5F5DC"),
  ("bisque",               "#FFE4C4"),
  ("black",                "#000000"),
  ("blanchedalmond",       "#FFEBCD"),
  ("blue",                 "#0000FF"),
  ("blueviolet",           "#8A2BE2"),
  ("brown",                "#A52A2A"),
  ("burlywood",            "#DED887"),
  ("cadetblue",            "#5F9EA0"),
  ("chartreuse",           "#7FFF00"),
  ("chocolate",            "#D2691E"),
  ("coral",                "#FF7F50"),
  ("cornflowerblue",       "#6495ED"),
  ("cornsilk",             "#FFF8DC"),
  ("crimson",              "#DC143C"),
  ("cyan",                 "#00FFFF"),
  ("darkblue",             "#00008B"),
  ("darkcyan",             "#008B8B"),
  ("darkgoldenrod",        "#B8860B"),
  ("darkgray",             "#A9A9A9"),
  ("darkgreen",            "#006400"),
  ("darkgrey",             "#A9A9A9"),
  ("darkkhaki",            "#BDB76B"),
  ("darkmagenta",          "#8B008B"),
  ("darkolivegreen",       "#556B2F"),
  ("darkorange",           "#FF8C00"),
  ("darkorchid",           "#9932CC"),
  ("darkred",              "#8B0000"),
  ("darksalmon",           "#E9967A"),
  ("darkseagreen",         "#8FBC8F"),
  ("darkslateblue",        "#483D8B"),
  ("darkslategray",        "#2F4F4F"),
  ("darkslategrey",        "#2F4F4F"),
  ("darkturquoise",        "#00CED1"),
  ("darkviolet",           "#9400D3"),
  ("deeppink",             "#FF1493"),
  ("deepskyblue",          "#00BFFF"),
  ("dimgray",              "#696969"),
  ("dimgrey",              "#696969"),
  ("dodgerblue",           "#1E90FF"),
  ("firebrick",            "#B22222"),
  ("floralwhite",          "#FFFAF0"),
  ("forestgreen",          "#228B22"),
  ("fuchsia",              "#FF00FF"),
  ("gainsboro",            "#DCDCDC"),
  ("ghostwhite",           "#F8F8FF"),
  ("gold",                 "#FFD700"),
  ("goldenrod",            "#DAA520"),
  ("gray",                 "#808080"),
  ("green",                "#008000"),
  ("greenyellow",          "#ADFF2F"),
  ("grey",                 "#808080"),
  ("honeydew",             "#F0FFF0"),
  ("hotpink",              "#FF69B4"),
  ("indianred",            "#CD5C5C"),
  ("indigo",               "#4B0082"),
  ("ivory",                "#FFFFF0"),
  ("khaki",                "#F0E68C"),
  ("lavender",             "#E6E6FA"),
  ("lavenderblush",        "#FFF0F5"),
  ("lawngreen",            "#7CFC00"),
  ("lemonchiffon",         "#FFFACD"),
  ("lightblue",            "#ADD8E6"),
  ("lightcoral",           "#F08080"),
  ("lightcyan",            "#E0FFFF"),
  ("lightgoldenrodyellow", "#FAFAD2"),
  ("lightgray",            "#D3D3D3"),
  ("lightgreen",           "#90EE90"),
  ("lightgrey",            "#D3D3D3"),
  ("lightpink",            "#FFB6C1"),
  ("lightsalmon",          "#FFA07A"),
  ("lightseagreen",        "#20B2AA"),
  ("lightskyblue",         "#87CEFA"),
  ("lightslategray",       "#778899"),
  ("lightslategrey",       "#778899"),
  ("lightsteelblue",       "#B0C4DE"),
  ("lightyellow",          "#FFFFE0"),
  ("lime",                 "#00FF00"),
  ("limegreen",            "#32CD32"),
  ("linen",                "#FAF0E6"),
  ("magenta",              "#FF00FF"),
  ("maroon",               "#800000"),
  ("mediumaquamarine",     "#66CDAA"),
  ("mediumblue",           "#0000CD"),
  ("mediumorchid",         "#BA55D3"),
  ("mediumpurple",         "#9370DB"),
  ("mediumseagreen",       "#3CB371"),
  ("mediumslateblue",      "#7B68EE"),
  ("mediumspringgreen",    "#00FA9A"),
  ("mediumturquoise",      "#48D1CC"),
  ("mediumvioletred",      "#C71585"),
  ("midnightblue",         "#191970"),
  ("mintcream",            "#F5FFFA"),
  ("mistyrose",            "#FFE4E1"),
  ("moccasin",             "#FFE4B5"),
  ("navajowhite",          "#FFDEAD"),
  ("navy",                 "#000080"),
  ("oldlace",              "#FDF5E6"),
  ("olive",                "#808000"),
  ("olivedrab",            "#6B8E23"),
  ("orange",               "#FFA500"),
  ("orangered",            "#FF4500"),
  ("orchid",               "#DA70D6"),
  ("palegoldenrod",        "#EEE8AA"),
  ("palegreen",            "#98FB98"),
  ("paleturquoise",        "#AFEEEE"),
  ("palevioletred",        "#DB7093"),
  ("papayawhip",           "#FFEFD5"),
  ("peachpuff",            "#FFDAB9"),
  ("peru",                 "#CD853F"),
  ("pink",                 "#FFC0CB"),
  ("plum",                 "#DDA0DD"),
  ("powderblue",           "#B0E0E6"),
  ("purple",               "#800080"),
  ("rebeccapurple",        "#663399"),
  ("red",                  "#FF0000"),
  ("rosybrown",            "#BC8F8F"),
  ("royalblue",            "#4169E1"),
  ("saddlebrown",          "#8B4513"),
  ("salmon",               "#FA8072"),
  ("sandybrown",           "#F4A460"),
  ("seagreen",             "#2E8B57"),
  ("seashell",             "#FFF5EE"),
  ("sienna",               "#A0522D"),
  ("silver",               "#C0C0C0"),
  ("skyblue",              "#87CEEB"),
  ("slateblue",            "#6A5ACD"),
  ("slategray",            "#708090"),
  ("slategrey",            "#708090"),
  ("snow",                 "#FFFAFA"),
  ("springgreen",          "#00FF7F"),
  ("steelblue",            "#4682B4"),
  ("tan",                  "#D2B48C"),
  ("teal",                 "#008080"),
  ("thistle",              "#D8BFD8"),
  ("tomato",               "#FF6347"),
  ("turquoise",            "#40E0D0"),
  ("violet",               "#EE82EE"),
  ("wheat",                "#F5DEB3"),
  ("white",                "#FFFFFF"),
  ("whitesmoke",           "#F5F5F5"),
  ("yellow",               "#FFFF00"),
  ("yellowgreen",          "#9ACD32")]

/-- CSS named colors with their parsed Rgba values (embeds `NAMED_COLORS`
from colors.rs; the source parses each entry with its infallible const
parser, which performs the identical parse as `parse_hex`, so the parse
result is taken with a default that is never reached). -/

def NAMED_COLORS : List (List Nat × Rgba) :=
  NAMED_COLOR_DATA.map fun p => (strBytes p.1, (parse_hex (strBytes p.2)).getD ⟨0, 0, 0, 0⟩)

/-- Resolve a color string (embeds `lookup` from colors.rs): lowercase the
input, try the named table, and fall back to hex parsing of the original
string. -/

def lookup (s : List Nat) : Option Rgba :=
  let lowercase := s.map toAsciiLowercase
  match (NAMED_COLORS.find? fun e => e.1 == lowercase).map (fun e => e.2) with
  | some rgba => some rgba
  | none => parse_hex s

/-- Resolve a label-to-string mapping (embeds `parse_colors` from colors.rs):
entries whose value fails to resolve are skipped (the source logs a warning
for them), the rest keep their label. -/

def parse_colors (colors : List (List Nat × List Nat)) : List (List Nat × Rgba) :=
  colors.filterMap fun kv => (lookup kv.2).map fun rgba => (kv.1, rgba)

inductive F32 where
  | nan : F32
  | inf : Bool → F32
  | fin : ℚ → F32
deriving DecidableEq, Repr

namespace F32

/-- IEEE-754 strict less-than: NaN compares false with everything. -/
def blt : F32 → F32 → Bool
  | nan, _ => false
  | _, nan => false
  | inf s1, inf s2 => !s1 && s2
  | inf s, fin _ => !s
  | fin _, inf s => s
  | fin a, fin b => a < b

/-- IEEE-754 less-or-equal: NaN compares false with everything. -/
def ble : F32 → F32 → Bool
  | nan, _ => false
  | _, nan => false
  | inf s1, inf s2 => !s1 || s2
  | inf s, fin _ => !s
  | fin _, inf s => s
  | fin a, fin b => a ≤ b

/-- Rust `f32::min`: if one argument is NaN the other is returned. -/
def fmin : F32 → F32 → F32
  | nan, y => y
  | x, nan => x
  | x, y => if blt y x then y else x

/-- Rust `f32::max`: if one argument is NaN the other is returned. -/
def fmax : F32 → F32 → F32
  | nan, y => y
  | x, nan => x
  | x, y => if blt x y then y else x

/-- IEEE-754 addition on the modelled values (finite addition exact). -/
def add : F32 → F32 → F32
  | nan, _ => nan
  | _, nan => nan
  | inf s1, inf s2 => if s1 = s2 then inf s1 else nan
  | inf s, fin _ => inf s
  | fin _, inf s => inf s
  | fin a, fin b => fin (a + b)

/-- IEEE-754 multiplication on the modelled values (finite product exact;
zero is unsigned in this model). -/
def mul : F32 → F32 → F32
  | nan, _ => nan
  | _, nan => nan
  | inf s1, inf s2 => inf (s1 = s2)
  | inf s, fin q => if q = 0 then nan else inf (s = decide (0 < q))
  | fin q, inf s => if q = 0 then nan else inf (s = decide (0 < q))
  | fin a, fin b => fin (a * b)

/-- Negation. -/
def neg : F32 → F32
  | nan => nan
  | inf s => inf !s
  | fin q => fin (-q)

/-- Subtraction. -/
def sub (x y : F32) : F32 := add x (neg y)

/-- IEEE-754 division on the modelled values (finite quotient exact; zero
is unsigned in this model, so x / 0 carries the sign of x). -/
def div : F32 → F32 → F32
  | nan, _ => nan
  | _, nan => nan
  | inf _, inf _ => nan
  | inf s, fin q => inf (s = decide (0 ≤ q))
  | fin _, inf _ => fin 0
  | fin a, fin b =>
    if b = 0 then (if a = 0 then nan else inf (decide (0 < a))) else fin (a / b)

/-- Rust `f32::clamp`: raise to `lo` when below, lower to `hi` when above;
NaN stays NaN. -/
def clamp (x lo hi : F32) : F32 :=
  let x1 := if blt x lo then lo else x
  if blt hi x1 then hi else x1

end F32

/-- Font models a loaded `ab_glyph` font through its natural (scale 1.0)
metrics: per-character horizontal advance and the line height; metrics at
any other scale are the natural ones multiplied by the scale, which is how
`ab_glyph` scaled fonts behave. -/

structure Font where
  advance : Char → F32
  height : F32

/-- Width of a line of text at scale 1.0 (embeds `measure_text_width` from
text.rs): the sum — folded from 0.0 as Rust's f32 Sum does — of the
per-character advances. -/

def measure_text_width (font : Font) (text : List Char) : F32 :=
  (text.map font.advance).foldl F32.add (F32.fin 0)

/-- Widest line at scale 1.0: the fold with `f32::max` from 0.0 used inside
`find_optimal_scale`. -/

def max_line_width (font : Font) (lines : List (List Char)) : F32 :=
  (lines.map fun line => measure_text_width font line).foldl F32.fmax (F32.fin 0)

/-- Find the optimal font scale for the target box (embeds
`find_optimal_scale` from text.rs). -/

def find_optimal_scale (font : Font) (lines : List (List Char))
    (target_width target_height : F32) : F32 :=
  let num_lines : F32 := F32.fin (max lines.length 1 : ℕ)
  let mlw := max_line_width font lines
  let line_height := font.height
  let scale_for_width := if F32.blt (F32.fin 0) mlw then F32.div target_width mlw else target_height
  let total_height_at_1 := F32.mul num_lines line_height
  let scale_for_height :=
    if F32.blt (F32.fin 0) total_height_at_1 then F32.div target_height total_height_at_1
    else target_width
  F32.clamp (F32.fmin scale_for_width scale_for_height) (F32.fin 8) (F32.fin 96)

def findOptimalScale_spec (font : Font) (lines : List (List Char))
    (targetWidth targetHeight : F32) : F32 :=
  let lineCount : F32 := F32.fin (max lines.length 1 : ℕ)
  let maxLineWidth := max_line_width font lines
  let scaleForWidth :=
    if maxLineWidth = F32.fin 0 then targetHeight else F32.div targetWidth maxLineWidth
  let naturalBlockHeight := F32.mul lineCount font.height
  let scaleForHeight :=
    if naturalBlockHeight = F32.fin 0 then targetWidth else F32.div targetHeight naturalBlockHeight
  F32.clamp (F32.fmin scaleForWidth scaleForHeight) (F32.fin 8) (F32.fin 96)

/-- C3: the implemented scale solver coincides with the spec formula. -/

def unitFont : Font := ⟨fun _ => F32.fin 1, F32.fin 1⟩

def measureQ (advQ : Char → ℚ) (text : List Char) : ℚ := (text.map advQ).sum

def mlwQ (advQ : Char → ℚ) (lines : List (List Char)) : ℚ :=
  (lines.map (measureQ advQ)).foldl max 0

def clampQ (x : ℚ) : ℚ := min (max x 8) 96

inductive ExtendsText : List (List Char) → List (List Char) → Prop where
  | addLine (ls : List (List Char)) (l : List Char) : ExtendsText ls (ls ++ [l])
  | longerLine (pre : List (List Char)) (l suf : List Char) (post : List (List Char)) :
      ExtendsText (pre ++ l :: post) (pre ++ (l ++ suf) :: post)

def tenthFont : Font := ⟨fun _ => F32.fin 1, F32.fin (1 / 10)⟩

/-- C5 counterexample: lengthening the single empty line of `[""]` to `"a"`
raises the scale from 8 to 50 — the width candidate switches from the
`targetHeight` fallback (maxLineWidth = 0) to an actual quotient. -/

def splitNl : List Char → List (List Char)
  | [] => [[]]
  | c :: rest =>
    match splitNl rest with
    | [] => [[c]]
    | l :: ls => if c = '\n' then [] :: l :: ls else (c :: l) :: ls

/-- Strip one trailing carriage return, as `str::lines` does per line. -/

def stripCr (l : List Char) : List Char :=
  if l.getLast? = some '\r' then l.dropLast else l

/-- Rust `str::lines`: split at line feeds, drop the final empty piece a
trailing line feed would yield, strip one trailing carriage return of each
line. -/

def rustLines (s : List Char) : List (List Char) :=
  match s with
  | [] => []
  | _ =>
    let parts := splitNl s
    let parts := if s.getLast? = some '\n' then parts.dropLast else parts
    parts.map stripCr

/-- Rgb models `image::Rgb<u8>`. -/

structure Rgb where
  r : Nat
  g : Nat
  b : Nat
deriving DecidableEq, Repr

/-- RgbImage models `image::RgbImage` as dimensions plus a pixel function
(the `from_fn` view). -/

structure RgbImage where
  width : Nat
  height : Nat
  pix : Nat → Nat → Rgb

/-- RgbaImage models `image::RgbaImage` the same way. -/

structure RgbaImage where
  width : Nat
  height : Nat
  pix : Nat → Nat → Rgba

namespace F32

/-- Rust `as i32` on an f32: truncate toward zero, saturate at the i32
bounds, NaN to 0. -/
def toI32 : F32 → Int
  | nan => 0
  | inf b => if b then 2147483647 else -2147483648
  | fin q => max (-2147483648) (min 2147483647 (if 0 ≤ q then ⌊q⌋ else ⌈q⌉))

end F32

/-- Width of a line at the chosen scale: the sum of the scaled per-character
advances, as both drawing functions compute it. -/

def scaledLineWidth (font : Font) (scale : F32) (line : List Char) : F32 :=
  (line.map fun c => F32.mul scale (font.advance c)).foldl F32.add (F32.fin 0)

/-- DrawText is the external rasterization capability
(`imageproc::drawing::draw_text_mut`): buffer, color, x, y, scale, text
(the font is fixed by the caller and folded into the capability). -/

def DrawText : Type := RgbaImage → Rgba → Int → Int → F32 → List Char → RgbaImage

/-- Draw text centered on an image (embeds `draw_centered_text` from
text.rs).  The font byte provider, the font parser and the rasterizer are
the external collaborators, passed as parameters. -/

def draw_centered_text {FB : Type} (fontBytes : Option FB) (parseFont : FB → Option Font)
    (drawText : Font → DrawText) (rgba : RgbaImage) (text : List Char) (fg_color : Rgba)
    (padding : F32) : RgbaImage :=
  match fontBytes with
  | none => rgba
  | some fb =>
    match parseFont fb with
    | none => rgba
    | some font =>
      let width := rgba.width
      let height := rgba.height
      let lines := rustLines text
      if lines = [] then rgba
      else
        let content_fraction := F32.sub (F32.fin 1) (F32.mul (F32.fin 2) padding)
        let target_width := F32.mul (F32.fin width) content_fraction
        let target_height := F32.mul (F32.fin height) content_fraction
        let scale := find_optimal_scale font lines target_width target_height
        let line_height := F32.mul scale font.height
        let num_lines := F32.fin (lines.length : ℚ)
        let total_height := F32.mul num_lines line_height
        let start_y := F32.div (F32.sub (F32.fin height) total_height) (F32.fin 2)
        (lines.enum).foldl
          (fun img p =>
            let line_width := scaledLineWidth font scale p.2
            let text_x := F32.toI32 (F32.fmax
              (F32.div (F32.sub (F32.fin width) line_width) (F32.fin 2)) (F32.fin 0))
            let text_y := F32.toI32 (F32.add start_y (F32.mul (F32.fin (p.1 : ℚ)) line_height))
            drawText font img fg_color text_x text_y scale p.2)
          rgba

/-- Draw text centered with reserved top/bottom space (embeds
`draw_centered_text_with_reserved` from text.rs). -/

def draw_centered_text_with_reserved {FB : Type} (fontBytes : Option FB)
    (parseFont : FB → Option Font) (drawText : Font → DrawText) (rgba : RgbaImage)
    (text : List Char) (fg_color : Rgba) (padding reserved_top reserved_bottom y_offset : F32) :
    RgbaImage :=
  match fontBytes with
  | none => rgba
  | some fb =>
    match parseFont fb with
    | none => rgba
    | some font =>
      let width := rgba.width
      let height := rgba.height
      let available_height := F32.sub (F32.sub (F32.fin height) reserved_top) reserved_bottom
      let content_fraction := F32.sub (F32.fin 1) (F32.mul (F32.fin 2) padding)
      let target_width := F32.mul (F32.fin width) content_fraction
      let target_height := F32.mul available_height content_fraction
      let scale := find_optimal_scale font [text] target_width target_height
      let line_height := F32.mul scale font.height
      let text_width := scaledLineWidth font scale text
      let x := F32.toI32 (F32.fmax
        (F32.div (F32.sub (F32.fin width) text_width) (F32.fin 2)) (F32.fin 0))
      let y := F32.toI32 (F32.add (F32.add reserved_top
        (F32.div (F32.sub available_height line_height) (F32.fin 2))) y_offset)
      drawText font rgba fg_color x y scale text

def rgb_to_rgba (rgb : RgbImage) : RgbaImage :=
  ⟨rgb.width, rgb.height, fun x y =>
    let pixel := rgb.pix x y
    ⟨pixel.r, pixel.g, pixel.b, 255⟩⟩

/-- Convert an RgbaImage to an RgbImage, discarding alpha (embeds
`rgba_to_rgb` from image.rs). -/

def rgba_to_rgb (rgba : RgbaImage) : RgbImage :=
  ⟨rgba.width, rgba.height, fun x y =>
    let pixel := rgba.pix x y
    ⟨pixel.r, pixel.g, pixel.b⟩⟩

/-- C10: converting RGB to RGBA (alpha 255) and back is the identity on
dimensions and on every in-bounds pixel. -/

lemma try_hex_digit_lower (a : Nat) :
    try_hex_digit (toAsciiLowercase a) = try_hex_digit a := by
  unfold try_hex_digit toAsciiLowercase
  split_ifs <;> first | rfl | omega

lemma toAsciiLowercase_eq_35 (a : Nat) : toAsciiLowercase a = 35 ↔ a = 35 := by
  unfold toAsciiLowercase
  split_ifs <;> omega

lemma parse_hex_map_lower (s : List Nat) :
    parse_hex (s.map toAsciiLowercase) = parse_hex s := by
  rcases s with _ | ⟨h0, t⟩
  · rfl
  · by_cases h35 : h0 = 35
    · subst h35
      have hl : toAsciiLowercase 35 = 35 := rfl
      rcases t with _ | ⟨a, _ | ⟨b, _ | ⟨c, _ | ⟨d, _ | ⟨e, _ | ⟨f, _ | ⟨g, _ | ⟨h8, _ | ⟨i, rest⟩⟩⟩⟩⟩⟩⟩⟩⟩ <;>
        simp [parse_hex, hl, try_hex_digit_lower]
    · have hl : toAsciiLowercase h0 ≠ 35 := fun hc => h35 ((toAsciiLowercase_eq_35 h0).mp hc)
      simp [parse_hex, hl, h35]

set_option maxRecDepth 4000 in
lemma named_colors_no_hash : ∀ e ∈ NAMED_COLORS, e.1.head? ≠ some 35 := by decide

/-- C1: hex parsing of every grammar-conformant string: 3 digits give
channel = digit × 17 with alpha 255, 6 digits give first × 16 + second with
alpha 255, 8 digits the same with the last pair as alpha; and on strings
starting with '#' (the hex grammar) `lookup` misses the name table and
returns exactly `parse_hex`. -/

theorem parse_hex_valid_grammar :
    (∀ d1 d2 d3 v1 v2 v3,
      try_hex_digit d1 = some v1 → try_hex_digit d2 = some v2 → try_hex_digit d3 = some v3 →
      parse_hex [35, d1, d2, d3] = some ⟨v1 * 17, v2 * 17, v3 * 17, 255⟩) ∧
    (∀ d1 d2 d3 d4 d5 d6 v1 v2 v3 v4 v5 v6,
      try_hex_digit d1 = some v1 → try_hex_digit d2 = some v2 → try_hex_digit d3 = some v3 →
      try_hex_digit d4 = some v4 → try_hex_digit d5 = some v5 → try_hex_digit d6 = some v6 →
      parse_hex [35, d1, d2, d3, d4, d5, d6] =
        some ⟨v1 * 16 + v2, v3 * 16 + v4, v5 * 16 + v6, 255⟩) ∧
    (∀ d1 d2 d3 d4 d5 d6 d7 d8 v1 v2 v3 v4 v5 v6 v7 v8,
      try_hex_digit d1 = some v1 → try_hex_digit d2 = some v2 → try_hex_digit d3 = some v3 →
      try_hex_digit d4 = some v4 → try_hex_digit d5 = some v5 → try_hex_digit d6 = some v6 →
      try_hex_digit d7 = some v7 → try_hex_digit d8 = some v8 →
      parse_hex [35, d1, d2, d3, d4, d5, d6, d7, d8] =
        some ⟨v1 * 16 + v2, v3 * 16 + v4, v5 * 16 + v6, v7 * 16 + v8⟩) ∧
    (∀ s : List Nat, s.head? = some 35 → lookup s = parse_hex s) := by
  refine ⟨?_, ?_, ?_, ?_⟩
  · intro d1 d2 d3 v1 v2 v3 h1 h2 h3
    simp [parse_hex, h1, h2, h3]
  · intro d1 d2 d3 d4 d5 d6 v1 v2 v3 v4 v5 v6 h1 h2 h3 h4 h5 h6
    simp [parse_hex, h1, h2, h3, h4, h5, h6]
  · intro d1 d2 d3 d4 d5 d6 d7 d8 v1 v2 v3 v4 v5 v6 v7 v8 h1 h2 h3 h4 h5 h6 h7 h8
    simp [parse_hex, h1, h2, h3, h4, h5, h6, h7, h8]
  · intro s hs
    have hfind : (NAMED_COLORS.find? fun e => e.1 == s.map toAsciiLowercase) = none := by
      rw [List.find?_eq_none]
      intro e he
      have hne := named_colors_no_hash e he
      simp only [beq_iff_eq]
      intro hcontra
      apply hne
      rw [hcontra]
      rcases s with _ | ⟨a, t⟩
      · simp at hs
      · simp at hs
        subst hs
        rfl
    simp [lookup, hfind]

theorem parse_hex_valid_grammar_witness :
    try_hex_digit 102 = some 15 ∧
    parse_hex [35, 102, 97, 98] = some ⟨255, 170, 187, 255⟩ ∧
    parse_hex [35, 102, 102, 54, 98, 51, 53] = some ⟨255, 107, 53, 255⟩ ∧
    parse_hex [35, 102, 102, 54, 98, 51, 53, 56, 48] = some ⟨255, 107, 53, 128⟩ ∧
    lookup [35, 102, 97, 98] = parse_hex [35, 102, 97, 98] :=
  ⟨by decide,
   parse_hex_valid_grammar.1 102 97 98 15 10 11 (by decide) (by decide) (by decide),
   parse_hex_valid_grammar.2.1 102 102 54 98 51 53 15 15 6 11 3 5
     (by decide) (by decide) (by decide) (by decide) (by decide) (by decide),
   parse_hex_valid_grammar.2.2.1 102 102 54 98 51 53 56 48 15 15 6 11 3 5 8 0
     (by decide) (by decide) (by decide) (by decide) (by decide) (by decide) (by decide) (by decide),
   parse_hex_valid_grammar.2.2.2 [35, 102, 97, 98] rfl⟩

/-- C2: every byte string that misses the hex grammar — no leading '#',
byte length outside {4, 7, 9}, or a non-hex byte at a digit position —
parses to `none`, never a partial value. -/

theorem parse_hex_rejects_invalid (s : List Nat)
    (h : s.head? ≠ some 35 ∨ (s.length ≠ 4 ∧ s.length ≠ 7 ∧ s.length ≠ 9) ∨
      ∃ c ∈ s.tail, try_hex_digit c = none) :
    parse_hex s = none := by
  rcases h with h | h | h
  · simp [parse_hex, h]
  · rcases s with _ | ⟨h0, t⟩
    · rfl
    · rcases t with _ | ⟨a, _ | ⟨b, _ | ⟨c, _ | ⟨d, _ | ⟨e, _ | ⟨f, _ | ⟨g, _ | ⟨h8, _ | ⟨i, rest⟩⟩⟩⟩⟩⟩⟩⟩⟩ <;>
        simp_all [parse_hex]
  · rcases s with _ | ⟨h0, t⟩
    · rfl
    · by_cases h35 : h0 = 35
      · subst h35
        obtain ⟨c0, hc0, hnone⟩ := h
        rcases t with _ | ⟨a, _ | ⟨b, _ | ⟨c, _ | ⟨d, _ | ⟨e, _ | ⟨f, _ | ⟨g, _ | ⟨h8, _ | ⟨i, rest⟩⟩⟩⟩⟩⟩⟩⟩⟩
        · rfl
        · rfl
        · rfl
        · simp only [List.tail_cons, List.mem_cons, List.not_mem_nil, or_false] at hc0
          rcases hc0 with rfl | rfl | rfl <;> simp [parse_hex, hnone]
        · rfl
        · rfl
        · simp only [List.tail_cons, List.mem_cons, List.not_mem_nil, or_false] at hc0
          rcases hc0 with rfl | rfl | rfl | rfl | rfl | rfl <;> simp [parse_hex, hnone]
        · rfl
        · simp only [List.tail_cons, List.mem_cons, List.not_mem_nil, or_false] at hc0
          rcases hc0 with rfl | rfl | rfl | rfl | rfl | rfl | rfl | rfl <;> simp [parse_hex, hnone]
        · rfl
      · simp [parse_hex, h35]

theorem parse_hex_rejects_invalid_witness :
    (strBytes "fab").head? ≠ some 35 ∧ parse_hex (strBytes "fab") = none :=
  ⟨by decide, parse_hex_rejects_invalid (strBytes "fab") (Or.inl (by decide))⟩

/-- C9: color resolution is case-insensitive — any two byte strings that
agree after ASCII lowercasing (in particular a string and its lowercased
form) resolve to the same result. -/

theorem lookup_case_insensitive (s t : List Nat)
    (h : s.map toAsciiLowercase = t.map toAsciiLowercase) :
    lookup s = lookup t := by
  unfold lookup
  rw [h, ← parse_hex_map_lower s, ← parse_hex_map_lower t, h]

theorem lookup_case_insensitive_witness :
    (strBytes "RED").map toAsciiLowercase = (strBytes "red").map toAsciiLowercase ∧
    lookup (strBytes "RED") = lookup (strBytes "red") :=
  ⟨by decide, lookup_case_insensitive (strBytes "RED") (strBytes "red") (by decide)⟩

/-- C6: batch resolution is total by construction and its result holds
exactly the entries whose value resolves, keyed by their original labels
with the resolved values; failing entries are omitted. -/

theorem parse_colors_exact (colors : List (List Nat × List Nat)) (k : List Nat) (c : Rgba) :
    (k, c) ∈ parse_colors colors ↔ ∃ v, (k, v) ∈ colors ∧ lookup v = some c := by
  simp only [parse_colors, List.mem_filterMap, Option.map_eq_some']
  constructor
  · rintro ⟨⟨k0, v0⟩, hmem, c0, hc0, heq⟩
    obtain ⟨hk, hc⟩ := Prod.mk.injEq .. ▸ heq
    exact ⟨v0, by simpa [← hk] using hmem, by simp_all⟩
  · rintro ⟨v, hmem, hl⟩
    exact ⟨(k, v), hmem, c, hl, rfl⟩

/-- F32 models the `f32` values this code can produce: NaN, signed
infinities, and finite values (taken exact; rounding is irrelevant to the
claims, which only involve comparisons, clamping and monotone operations). -/

lemma fmax_shape (acc w : F32)
    (h : acc = F32.inf true ∨ ∃ q, acc = F32.fin q ∧ 0 ≤ q) :
    F32.fmax acc w = F32.inf true ∨ ∃ q, F32.fmax acc w = F32.fin q ∧ 0 ≤ q := by
  rcases h with h | ⟨q, h, hq⟩ <;> subst h <;> rcases w with _ | s | r
  · exact Or.inl rfl
  · rcases s <;> exact Or.inl rfl
  · exact Or.inl (by simp [F32.fmax, F32.blt])
  · exact Or.inr ⟨q, rfl, hq⟩
  · rcases s
    · exact Or.inr ⟨q, by simp [F32.fmax, F32.blt], hq⟩
    · exact Or.inl (by simp [F32.fmax, F32.blt])
  · by_cases hlt : q < r
    · exact Or.inr ⟨r, by simp [F32.fmax, F32.blt, hlt], le_of_lt (lt_of_le_of_lt hq hlt)⟩
    · exact Or.inr ⟨q, by simp [F32.fmax, F32.blt, hlt], hq⟩

lemma foldl_fmax_shape (ws : List F32) (acc : F32)
    (h : acc = F32.inf true ∨ ∃ q, acc = F32.fin q ∧ 0 ≤ q) :
    ws.foldl F32.fmax acc = F32.inf true ∨
      ∃ q, ws.foldl F32.fmax acc = F32.fin q ∧ 0 ≤ q := by
  induction ws generalizing acc with
  | nil => exact h
  | cons w ws ih => exact ih _ (fmax_shape acc w h)

lemma max_line_width_shape (font : Font) (lines : List (List Char)) :
    max_line_width font lines = F32.inf true ∨
      ∃ q, max_line_width font lines = F32.fin q ∧ 0 ≤ q :=
  foldl_fmax_shape _ _ (Or.inr ⟨0, rfl, le_refl 0⟩)

/-- Modelled from the spec's words for comparison with the source: two scale
candidates `targetWidth / maxLineWidth` (or `targetHeight` when
`maxLineWidth` is zero) and `targetHeight / (lineCount × naturalLineHeight)`
(or `targetWidth` when the natural block height is zero), minimum of the
two, clamped to [8, 96]. -/

theorem find_optimal_scale_eq_spec (font : Font) (lines : List (List Char))
    (tw th : F32) (hq : ℚ) (hh : font.height = F32.fin hq) (h0 : 0 ≤ hq) :
    find_optimal_scale font lines tw th = findOptimalScale_spec font lines tw th := by
  unfold find_optimal_scale findOptimalScale_spec
  rw [hh]
  dsimp only
  refine congrArg (fun z => F32.clamp z (F32.fin 8) (F32.fin 96)) ?_
  refine congr_arg₂ F32.fmin ?_ ?_
  · rcases max_line_width_shape font lines with hm | ⟨q, hm, hq0⟩ <;> rw [hm]
    · simp [F32.blt]
    · by_cases hz : q = 0
      · subst hz; simp [F32.blt]
      · have hlt : (0 : ℚ) < q := lt_of_le_of_ne hq0 (Ne.symm hz)
        simp [F32.blt, hlt, hz]
  · have hmul : F32.mul (F32.fin ((max lines.length 1 : ℕ) : ℚ)) (F32.fin hq)
        = F32.fin (((max lines.length 1 : ℕ) : ℚ) * hq) := rfl
    rw [hmul]
    set n : ℚ := ((max lines.length 1 : ℕ) : ℚ) with hn
    by_cases hzq : hq = 0
    · subst hzq
      simp [F32.blt]
    · have hqpos : 0 < hq := lt_of_le_of_ne h0 (Ne.symm hzq)
      have hn1 : 1 ≤ max lines.length 1 := le_max_right _ 1
      have hnpos : 0 < n := by
        rw [hn]
        exact_mod_cast Nat.lt_of_lt_of_le Nat.zero_lt_one hn1
      have hprod : 0 < n * hq := mul_pos hnpos hqpos
      simp [F32.blt, hprod, ne_of_gt hprod]

/-- A concrete monospace-like font for witnesses: every advance 1, line
height 1. -/

theorem find_optimal_scale_eq_spec_witness :
    unitFont.height = F32.fin 1 ∧ (0 : ℚ) ≤ 1 ∧
    find_optimal_scale unitFont [['a']] (F32.fin 1000) (F32.fin 5)
      = findOptimalScale_spec unitFont [['a']] (F32.fin 1000) (F32.fin 5) :=
  ⟨rfl, by norm_num,
   find_optimal_scale_eq_spec unitFont [['a']] (F32.fin 1000) (F32.fin 5) 1 rfl (by norm_num)⟩

lemma foldl_add_fin (advQ : Char → ℚ) (xs : List Char) (q0 : ℚ) :
    ((xs.map fun c => F32.fin (advQ c)).foldl F32.add (F32.fin q0))
      = F32.fin (q0 + (xs.map advQ).sum) := by
  induction xs generalizing q0 with
  | nil => simp
  | cons x xs ih =>
    simp only [List.map_cons, List.foldl_cons, List.sum_cons]
    rw [show F32.add (F32.fin q0) (F32.fin (advQ x)) = F32.fin (q0 + advQ x) from rfl, ih]
    ring_nf

/-- Scale-1.0 width of a line over the rational advance table. -/

lemma measure_text_width_fin (font : Font) (advQ : Char → ℚ)
    (hadv : ∀ c, font.advance c = F32.fin (advQ c)) (text : List Char) :
    measure_text_width font text = F32.fin (measureQ advQ text) := by
  unfold measure_text_width measureQ
  have hmap : text.map font.advance = text.map fun c => F32.fin (advQ c) := by
    exact List.map_congr_left fun c _ => hadv c
  rw [hmap, foldl_add_fin]
  norm_num

lemma fmax_fin (a b : ℚ) : F32.fmax (F32.fin a) (F32.fin b) = F32.fin (max a b) := by
  by_cases h : a < b
  · simp [F32.fmax, F32.blt, h, max_eq_right (le_of_lt h)]
  · simp [F32.fmax, F32.blt, h, max_eq_left (le_of_not_lt h)]

/-- Rational value of the widest line. -/

lemma foldl_fmax_fin (ws : List ℚ) (q0 : ℚ) :
    ((ws.map F32.fin).foldl F32.fmax (F32.fin q0)) = F32.fin (ws.foldl max q0) := by
  induction ws generalizing q0 with
  | nil => rfl
  | cons w ws ih => simp only [List.map_cons, List.foldl_cons, fmax_fin, ih]

lemma max_line_width_fin (font : Font) (advQ : Char → ℚ)
    (hadv : ∀ c, font.advance c = F32.fin (advQ c)) (lines : List (List Char)) :
    max_line_width font lines = F32.fin (mlwQ advQ lines) := by
  unfold max_line_width mlwQ
  have hmap : (lines.map fun line => measure_text_width font line)
      = (lines.map (measureQ advQ)).map F32.fin := by
    rw [List.map_map]
    exact List.map_congr_left fun l _ => measure_text_width_fin font advQ hadv l
  rw [hmap, foldl_fmax_fin]

lemma fmin_fin (a b : ℚ) : F32.fmin (F32.fin a) (F32.fin b) = F32.fin (min a b) := by
  by_cases h : b < a
  · simp [F32.fmin, F32.blt, h, min_eq_right (le_of_lt h)]
  · simp [F32.fmin, F32.blt, h, min_eq_left (le_of_not_lt h)]

/-- Rational clamp to [8, 96], as the source's clamp acts on finite values. -/

lemma clamp_fin (x : ℚ) :
    F32.clamp (F32.fin x) (F32.fin 8) (F32.fin 96) = F32.fin (clampQ x) := by
  unfold F32.clamp clampQ
  by_cases h8 : x < 8
  · have : ¬ (96 : ℚ) < 8 := by norm_num
    simp [F32.blt, h8, this, max_eq_right (le_of_lt h8), min_eq_left (by norm_num : (8:ℚ) ≤ 96)]
  · by_cases h96 : 96 < x
    · simp [F32.blt, h8, h96, max_eq_left (le_of_not_lt h8), min_eq_right (le_of_lt h96)]
    · simp [F32.blt, h8, h96, max_eq_left (le_of_not_lt h8), min_eq_left (le_of_not_lt h96)]

lemma div_fin_pos (a b : ℚ) (hb : 0 < b) :
    F32.div (F32.fin a) (F32.fin b) = F32.fin (a / b) := by
  simp [F32.div, ne_of_gt hb]

/-- Evaluation of the scale solver on a font with finite metrics and finite
targets, as a rational computation. -/

lemma find_optimal_scale_fin (font : Font) (advQ : Char → ℚ) (hq : ℚ)
    (hadv : ∀ c, font.advance c = F32.fin (advQ c)) (hh : font.height = F32.fin hq)
    (lines : List (List Char)) (w t : ℚ) :
    find_optimal_scale font lines (F32.fin w) (F32.fin t) =
      F32.fin (clampQ (min
        (if 0 < mlwQ advQ lines then w / mlwQ advQ lines else t)
        (if 0 < ((max lines.length 1 : ℕ) : ℚ) * hq
          then t / (((max lines.length 1 : ℕ) : ℚ) * hq) else w))) := by
  unfold find_optimal_scale
  rw [hh, max_line_width_fin font advQ hadv]
  dsimp only
  rw [show F32.mul (F32.fin ((max lines.length 1 : ℕ) : ℚ)) (F32.fin hq)
      = F32.fin (((max lines.length 1 : ℕ) : ℚ) * hq) from rfl]
  set m := mlwQ advQ lines with hmdef
  set n : ℚ := ((max lines.length 1 : ℕ) : ℚ) with hndef
  have e1 : F32.blt (F32.fin 0) (F32.fin m) = true ↔ 0 < m := by simp [F32.blt]
  have e2 : F32.blt (F32.fin 0) (F32.fin (n * hq)) = true ↔ 0 < n * hq := by simp [F32.blt]
  simp only [e1, e2]
  by_cases hm0 : 0 < m
  · rw [if_pos hm0, if_pos hm0, div_fin_pos w m hm0]
    by_cases hb0 : 0 < n * hq
    · rw [if_pos hb0, if_pos hb0, div_fin_pos t _ hb0, fmin_fin, clamp_fin]
    · rw [if_neg hb0, if_neg hb0, fmin_fin, clamp_fin]
  · rw [if_neg hm0, if_neg hm0]
    by_cases hb0 : 0 < n * hq
    · rw [if_pos hb0, if_pos hb0, div_fin_pos t _ hb0, fmin_fin, clamp_fin]
    · rw [if_neg hb0, if_neg hb0, fmin_fin, clamp_fin]

lemma div_ne_nan_fin_pos (x : F32) (b : ℚ) (hx : x ≠ F32.nan) (hb : 0 < b) :
    F32.div x (F32.fin b) ≠ F32.nan := by
  rcases x with _ | s | a
  · exact absurd rfl hx
  · simp [F32.div]
  · simp [F32.div, ne_of_gt hb]

lemma fmin_ne_nan (x y : F32) (hx : x ≠ F32.nan) (hy : y ≠ F32.nan) :
    F32.fmin x y ≠ F32.nan := by
  rcases x with _ | s | a <;> rcases y with _ | s2 | b <;>
    simp_all [F32.fmin] <;> split <;> simp_all

lemma clamp_range (x : F32) (hx : x ≠ F32.nan) :
    F32.ble (F32.fin 8) (F32.clamp x (F32.fin 8) (F32.fin 96)) = true ∧
    F32.ble (F32.clamp x (F32.fin 8) (F32.fin 96)) (F32.fin 96) = true := by
  rcases x with _ | s | q
  · exact absurd rfl hx
  · rcases s <;> simp [F32.clamp, F32.blt, F32.ble] <;> norm_num
  · rw [clamp_fin]
    unfold clampQ
    refine ⟨?_, ?_⟩
    · simp only [F32.ble, decide_eq_true_eq, le_min_iff]
      exact ⟨le_max_right q 8, by norm_num⟩
    · simp only [F32.ble, decide_eq_true_eq]
      exact min_le_right _ 96

/-- C4 counterexample: with both targets NaN the solver returns NaN, which
does not lie in [8, 96] (nor in any interval). -/

theorem find_optimal_scale_nan_outside_range :
    find_optimal_scale unitFont [['a']] F32.nan F32.nan = F32.nan ∧
    ¬ (F32.ble (F32.fin 8) (find_optimal_scale unitFont [['a']] F32.nan F32.nan) = true ∧
       F32.ble (find_optimal_scale unitFont [['a']] F32.nan F32.nan) (F32.fin 96) = true) := by
  have h : find_optimal_scale unitFont [['a']] F32.nan F32.nan = F32.nan := by
    simp [find_optimal_scale, max_line_width, measure_text_width, unitFont, F32.add, F32.fmax,
      F32.blt, F32.div, F32.mul, F32.fmin, F32.clamp]
  refine ⟨h, ?_⟩
  rw [h]
  simp [F32.ble]

/-- C4 (amended): for every font with finite metrics, all lines, and all
targets that are not NaN — including zero, negative and infinite targets —
the scale solver's output lies in [8, 96]. -/

theorem find_optimal_scale_in_range (font : Font) (advQ : Char → ℚ) (hq : ℚ)
    (hadv : ∀ c, font.advance c = F32.fin (advQ c)) (hh : font.height = F32.fin hq)
    (lines : List (List Char)) (tw th : F32) (hw : tw ≠ F32.nan) (ht : th ≠ F32.nan) :
    F32.ble (F32.fin 8) (find_optimal_scale font lines tw th) = true ∧
    F32.ble (find_optimal_scale font lines tw th) (F32.fin 96) = true := by
  unfold find_optimal_scale
  rw [hh, max_line_width_fin font advQ hadv]
  dsimp only
  rw [show F32.mul (F32.fin ((max lines.length 1 : ℕ) : ℚ)) (F32.fin hq)
      = F32.fin (((max lines.length 1 : ℕ) : ℚ) * hq) from rfl]
  set m := mlwQ advQ lines with hmdef
  set n : ℚ := ((max lines.length 1 : ℕ) : ℚ) with hndef
  have e1 : F32.blt (F32.fin 0) (F32.fin m) = true ↔ 0 < m := by simp [F32.blt]
  have e2 : F32.blt (F32.fin 0) (F32.fin (n * hq)) = true ↔ 0 < n * hq := by simp [F32.blt]
  simp only [e1, e2]
  have hsw : (if 0 < m then F32.div tw (F32.fin m) else th) ≠ F32.nan := by
    by_cases hm0 : 0 < m
    · rw [if_pos hm0]; exact div_ne_nan_fin_pos tw m hw hm0
    · rw [if_neg hm0]; exact ht
  have hsh : (if 0 < n * hq then F32.div th (F32.fin (n * hq)) else tw) ≠ F32.nan := by
    by_cases hb0 : 0 < n * hq
    · rw [if_pos hb0]; exact div_ne_nan_fin_pos th _ ht hb0
    · rw [if_neg hb0]; exact hw
  exact clamp_range _ (fmin_ne_nan _ _ hsw hsh)

theorem find_optimal_scale_in_range_witness :
    unitFont.height = F32.fin 1 ∧ F32.inf true ≠ F32.nan ∧
    (F32.ble (F32.fin 8) (find_optimal_scale unitFont [['a']] (F32.inf true) (F32.fin 0)) = true ∧
     F32.ble (find_optimal_scale unitFont [['a']] (F32.inf true) (F32.fin 0)) (F32.fin 96) = true) :=
  ⟨rfl, by simp,
   find_optimal_scale_in_range unitFont (fun _ => 1) 1 (fun _ => rfl) rfl [['a']]
     (F32.inf true) (F32.fin 0) (by simp) (by simp)⟩

/-- Extending a text block: appending a line, or lengthening one line. -/

lemma ExtendsText.length_le {L L' : List (List Char)} (h : ExtendsText L L') :
    L.length ≤ L'.length := by
  cases h with
  | addLine ls l => simp
  | longerLine pre l suf post => simp

lemma measureQ_nonneg (advQ : Char → ℚ) (hpos : ∀ c, 0 ≤ advQ c) (l : List Char) :
    0 ≤ measureQ advQ l := by
  apply List.sum_nonneg
  intro x hx
  obtain ⟨c, _, rfl⟩ := List.mem_map.mp hx
  exact hpos c

lemma measureQ_append (advQ : Char → ℚ) (l suf : List Char) :
    measureQ advQ (l ++ suf) = measureQ advQ l + measureQ advQ suf := by
  simp [measureQ]

lemma foldl_max_init_mono {a b : ℚ} (l : List ℚ) (h : a ≤ b) :
    l.foldl max a ≤ l.foldl max b := by
  induction l generalizing a b with
  | nil => exact h
  | cons x xs ih => exact ih (max_le_max h (le_refl x))

lemma le_foldl_max (a : ℚ) (l : List ℚ) : a ≤ l.foldl max a := by
  induction l generalizing a with
  | nil => exact le_refl a
  | cons x xs ih => exact le_trans (le_max_left a x) (ih _)

lemma mlwQ_extends_le (advQ : Char → ℚ) (hpos : ∀ c, 0 ≤ advQ c)
    {L L' : List (List Char)} (h : ExtendsText L L') :
    mlwQ advQ L ≤ mlwQ advQ L' := by
  cases h with
  | addLine ls l =>
    unfold mlwQ
    rw [List.map_append, List.foldl_append]
    exact le_trans (le_max_left _ _) (le_foldl_max _ _)
  | longerLine pre l suf post =>
    unfold mlwQ
    rw [List.map_append, List.map_append, List.foldl_append, List.foldl_append,
      List.map_cons, List.map_cons, List.foldl_cons, List.foldl_cons]
    apply foldl_max_init_mono
    apply max_le_max (le_refl _)
    rw [measureQ_append]
    have := measureQ_nonneg advQ hpos suf
    linarith

lemma clampQ_mono {a b : ℚ} (h : a ≤ b) : clampQ a ≤ clampQ b :=
  min_le_min (max_le_max h (le_refl 8)) (le_refl 96)

lemma le_clampQ (x : ℚ) : 8 ≤ clampQ x :=
  le_min (le_max_right x 8) (by norm_num)

lemma clampQ_of_le (x : ℚ) (h : x ≤ 8) : clampQ x = 8 := by
  unfold clampQ
  rw [max_eq_right h]
  norm_num

/-- C5 (amended): for a font with finite nonnegative metrics and fixed
finite targets, extending the text (lengthening a line or adding a line)
never increases the returned scale, provided the original text's widest
line already has positive natural width. -/

theorem find_optimal_scale_antitone (font : Font) (advQ : Char → ℚ) (hq : ℚ)
    (hadv : ∀ c, font.advance c = F32.fin (advQ c)) (hpos : ∀ c, 0 ≤ advQ c)
    (hh : font.height = F32.fin hq) (hq0 : 0 ≤ hq)
    (lines lines' : List (List Char)) (hext : ExtendsText lines lines')
    (hmlw : 0 < mlwQ advQ lines) (w t : ℚ) :
    F32.ble (find_optimal_scale font lines' (F32.fin w) (F32.fin t))
      (find_optimal_scale font lines (F32.fin w) (F32.fin t)) = true := by
  rw [find_optimal_scale_fin font advQ hq hadv hh lines w t,
    find_optimal_scale_fin font advQ hq hadv hh lines' w t]
  simp only [F32.ble, decide_eq_true_eq]
  have hmm' : mlwQ advQ lines ≤ mlwQ advQ lines' := mlwQ_extends_le advQ hpos hext
  have hm' : 0 < mlwQ advQ lines' := lt_of_lt_of_le hmlw hmm'
  rw [if_pos hmlw, if_pos hm']
  set m := mlwQ advQ lines with hmdef
  set m' := mlwQ advQ lines' with hm'def
  set n : ℚ := ((max lines.length 1 : ℕ) : ℚ) with hndef
  set n' : ℚ := ((max lines'.length 1 : ℕ) : ℚ) with hn'def
  have hnn' : n ≤ n' := by
    rw [hndef, hn'def]
    exact_mod_cast max_le_max hext.length_le (le_refl 1)
  have hnpos : 0 < n := by
    rw [hndef]
    exact_mod_cast Nat.lt_of_lt_of_le Nat.zero_lt_one (le_max_right _ 1)
  by_cases hwneg : w < 0
  · have h1 : w / m' < 0 := div_neg_of_neg_of_pos hwneg hm'
    have h2 : min (w / m')
        (if 0 < n' * hq then t / (n' * hq) else w) ≤ 8 := by
      by_cases hb' : 0 < n' * hq
      · rw [if_pos hb']; exact le_trans (min_le_left _ _) (by linarith)
      · rw [if_neg hb']; exact le_trans (min_le_left _ _) (by linarith)
    rw [clampQ_of_le _ h2]
    exact le_clampQ _
  · push_neg at hwneg
    have hsw : w / m' ≤ w / m := by
      rw [div_le_div_iff₀ hm' hmlw]
      exact mul_le_mul_of_nonneg_left hmm' hwneg
    by_cases hb : 0 < n * hq
    · have hqpos : 0 < hq := by
        rcases lt_or_eq_of_le hq0 with h | h
        · exact h
        · exfalso; rw [← h, mul_zero] at hb; exact lt_irrefl 0 hb
      have hb' : 0 < n' * hq := mul_pos (lt_of_lt_of_le hnpos hnn') hqpos
      rw [if_pos hb, if_pos hb']
      by_cases htneg : t < 0
      · have h1 : t / (n' * hq) < 0 := div_neg_of_neg_of_pos htneg hb'
        have h2 : min (w / m') (t / (n' * hq)) ≤ 8 :=
          le_trans (min_le_right _ _) (by linarith)
        rw [clampQ_of_le _ h2]
        exact le_clampQ _
      · push_neg at htneg
        have hsh : t / (n' * hq) ≤ t / (n * hq) := by
          rw [div_le_div_iff₀ hb' hb]
          exact mul_le_mul_of_nonneg_left
            (mul_le_mul_of_nonneg_right hnn' (le_of_lt hqpos)) htneg
        exact clampQ_mono (min_le_min hsw hsh)
    · have hb' : ¬ 0 < n' * hq := by
        intro hc
        apply hb
        have hqpos : 0 < hq := by
          by_contra hqn
          push_neg at hqn
          have : hq = 0 := le_antisymm hqn hq0
          rw [this, mul_zero] at hc
          exact lt_irrefl 0 hc
        exact mul_pos hnpos hqpos
      rw [if_neg hb, if_neg hb']
      exact clampQ_mono (min_le_min hsw (le_refl w))

/-- A font with advance 1 and line height 1/10, exhibiting the fallback
switch of the width candidate. -/

theorem find_optimal_scale_not_antitone :
    ExtendsText [([] : List Char)] [['a']] ∧
    find_optimal_scale tenthFont [[]] (F32.fin 1000) (F32.fin 5) = F32.fin 8 ∧
    find_optimal_scale tenthFont [['a']] (F32.fin 1000) (F32.fin 5) = F32.fin 50 ∧
    F32.ble (find_optimal_scale tenthFont [['a']] (F32.fin 1000) (F32.fin 5))
      (find_optimal_scale tenthFont [[]] (F32.fin 1000) (F32.fin 5)) = false := by
  refine ⟨ExtendsText.longerLine [] [] ['a'] [], ?_, ?_, ?_⟩
  · simp [find_optimal_scale, max_line_width, measure_text_width, tenthFont, F32.add, F32.fmax,
      F32.blt, F32.div, F32.mul, F32.fmin, F32.clamp]
    norm_num
  · simp [find_optimal_scale, max_line_width, measure_text_width, tenthFont, F32.add, F32.fmax,
      F32.blt, F32.div, F32.mul, F32.fmin, F32.clamp]
    norm_num
  · rw [show find_optimal_scale tenthFont [['a']] (F32.fin 1000) (F32.fin 5) = F32.fin 50 by
      simp [find_optimal_scale, max_line_width, measure_text_width, tenthFont, F32.add, F32.fmax,
        F32.blt, F32.div, F32.mul, F32.fmin, F32.clamp]; norm_num]
    rw [show find_optimal_scale tenthFont [[]] (F32.fin 1000) (F32.fin 5) = F32.fin 8 by
      simp [find_optimal_scale, max_line_width, measure_text_width, tenthFont, F32.add, F32.fmax,
        F32.blt, F32.div, F32.mul, F32.fmin, F32.clamp]; norm_num]
    simp [F32.ble]
    norm_num

theorem find_optimal_scale_antitone_witness :
    ExtendsText [['a']] [['a', 'b']] ∧ 0 < mlwQ (fun _ => 1) [['a']] ∧
    F32.ble (find_optimal_scale unitFont [['a', 'b']] (F32.fin 100) (F32.fin 100))
      (find_optimal_scale unitFont [['a']] (F32.fin 100) (F32.fin 100)) = true :=
  ⟨ExtendsText.longerLine [] ['a'] ['b'] [],
   by norm_num [mlwQ, measureQ],
   find_optimal_scale_antitone unitFont (fun _ => 1) 1 (fun _ => rfl) (fun _ => by norm_num)
     rfl (by norm_num) [['a']] [['a', 'b']] (ExtendsText.longerLine [] ['a'] ['b'] [])
     (by norm_num [mlwQ, measureQ]) 100 100⟩

/-- Split on the line-feed character (byte level of `str::lines` before
terminator handling). -/

lemma splitNl_ne_nil (s : List Char) : splitNl s ≠ [] := by
  cases s with
  | nil => simp [splitNl]
  | cons c rest =>
    unfold splitNl
    match splitNl rest with
    | [] => simp
    | l :: ls => by_cases h : c = '\n' <;> simp [h]

lemma splitNl_length_two (s : List Char) (h : s.getLast? = some '\n') :
    2 ≤ (splitNl s).length := by
  induction s with
  | nil => simp at h
  | cons c rest ih =>
    cases rest with
    | nil =>
      rw [List.getLast?_singleton, Option.some_inj] at h
      subst h
      simp [splitNl]
    | cons d rest2 =>
      rw [List.getLast?_cons_cons] at h
      have h2 := ih h
      rw [show splitNl (c :: d :: rest2) = (match splitNl (d :: rest2) with
          | [] => [[c]]
          | l :: ls => if c = '\n' then [] :: l :: ls else (c :: l) :: ls) from rfl]
      match hsp : splitNl (d :: rest2) with
      | [] => exact absurd hsp (splitNl_ne_nil _)
      | [l] => rw [hsp] at h2; simp at h2
      | l :: l2 :: ls =>
        by_cases hc : c = '\n' <;> simp [hc]

lemma rustLines_eq_nil (s : List Char) (h : rustLines s = []) : s = [] := by
  cases s with
  | nil => rfl
  | cons c rest =>
    exfalso
    unfold rustLines at h
    dsimp only at h
    rw [List.map_eq_nil_iff] at h
    by_cases hl : (c :: rest).getLast? = some '\n'
    · rw [if_pos hl] at h
      have h2 := splitNl_length_two (c :: rest) hl
      rw [← List.length_eq_zero] at h
      rw [List.length_dropLast] at h
      omega
    · rw [if_neg hl] at h
      exact splitNl_ne_nil _ h

/-- C7: both drawing entry points leave the buffer unchanged when the font
byte provider yields nothing or the parser rejects the bytes, and both draw
nothing when the text yields zero lines (for the reserved variant, which
hands the raw text to the rasterizer, provided the rasterizer draws nothing
for an empty text).  None of these paths signals an error — each returns
the buffer. -/

theorem draw_centered_text_noop {FB : Type} (parseFont : FB → Option Font)
    (drawText : Font → DrawText) (rgba : RgbaImage) (text : List Char) (fg : Rgba)
    (padding rt rb yo : F32) :
    (∀ fontBytes : Option FB,
      (fontBytes = none ∨ ∃ fb, fontBytes = some fb ∧ parseFont fb = none) →
      draw_centered_text fontBytes parseFont drawText rgba text fg padding = rgba ∧
      draw_centered_text_with_reserved fontBytes parseFont drawText rgba text fg
        padding rt rb yo = rgba) ∧
    (∀ fontBytes : Option FB, rustLines text = [] →
      draw_centered_text fontBytes parseFont drawText rgba text fg padding = rgba) ∧
    (∀ fontBytes : Option FB, rustLines text = [] →
      (∀ font img c x y s, drawText font img c x y s [] = img) →
      draw_centered_text_with_reserved fontBytes parseFont drawText rgba text fg
        padding rt rb yo = rgba) := by
  refine ⟨?_, ?_, ?_⟩
  · rintro fontBytes (rfl | ⟨fb, rfl, hparse⟩)
    · exact ⟨rfl, rfl⟩
    · constructor <;> simp [draw_centered_text, draw_centered_text_with_reserved, hparse]
  · intro fontBytes hlines
    rcases fontBytes with _ | fb
    · rfl
    · rcases hparse : parseFont fb with _ | font
      · simp [draw_centered_text, hparse]
      · simp [draw_centered_text, hparse, hlines]
  · intro fontBytes hlines hempty
    have htext : text = [] := rustLines_eq_nil text hlines
    subst htext
    rcases fontBytes with _ | fb
    · rfl
    · rcases hparse : parseFont fb with _ | font
      · simp [draw_centered_text_with_reserved, hparse]
      · simp [draw_centered_text_with_reserved, hparse, hempty]

theorem draw_centered_text_noop_witness :
    (some () = (none : Option Unit) ∨ ∃ fb, some () = some fb ∧
      (fun _ : Unit => (none : Option Font)) fb = none) ∧
    draw_centered_text (some ()) (fun _ : Unit => (none : Option Font))
      (fun _ _ _ _ _ _ _ => ⟨1, 1, fun _ _ => ⟨0, 0, 0, 0⟩⟩)
      ⟨1, 1, fun _ _ => ⟨0, 0, 0, 0⟩⟩ ['h', 'i'] ⟨255, 0, 0, 255⟩ (F32.fin 0)
      = ⟨1, 1, fun _ _ => ⟨0, 0, 0, 0⟩⟩ :=
  ⟨Or.inr ⟨(), rfl, rfl⟩,
   ((draw_centered_text_noop (fun _ : Unit => (none : Option Font))
      (fun _ _ _ _ _ _ _ => ⟨1, 1, fun _ _ => ⟨0, 0, 0, 0⟩⟩)
      ⟨1, 1, fun _ _ => ⟨0, 0, 0, 0⟩⟩ ['h', 'i'] ⟨255, 0, 0, 255⟩
      (F32.fin 0) (F32.fin 0) (F32.fin 0) (F32.fin 0)).1 (some ())
      (Or.inr ⟨(), rfl, rfl⟩)).1⟩

/-- C8: when a font is available and the text has lines, `draw_centered_text`
draws line i at y = startY + i × lineHeight from top to bottom, with
startY = (imageHeight − lineCount × lineHeight) / 2 and horizontal start
(imageWidth − lineScaledWidth) / 2 floored at 0, all at the resolved scale. -/

theorem draw_centered_text_layout {FB : Type} (fontBytes : Option FB)
    (parseFont : FB → Option Font) (drawText : Font → DrawText) (rgba : RgbaImage)
    (text : List Char) (fg : Rgba) (padding : F32) (fb : FB) (font : Font)
    (hfb : fontBytes = some fb) (hparse : parseFont fb = some font)
    (hne : rustLines text ≠ []) :
    draw_centered_text fontBytes parseFont drawText rgba text fg padding =
      (let lines := rustLines text
       let contentFraction := F32.sub (F32.fin 1) (F32.mul (F32.fin 2) padding)
       let scale := find_optimal_scale font lines
         (F32.mul (F32.fin rgba.width) contentFraction)
         (F32.mul (F32.fin rgba.height) contentFraction)
       let lineHeight := F32.mul scale font.height
       let startY := F32.div
         (F32.sub (F32.fin rgba.height) (F32.mul (F32.fin (lines.length : ℚ)) lineHeight))
         (F32.fin 2)
       (lines.enum).foldl
         (fun img p =>
           drawText font img fg
             (F32.toI32 (F32.fmax
               (F32.div (F32.sub (F32.fin rgba.width) (scaledLineWidth font scale p.2))
                 (F32.fin 2))
               (F32.fin 0)))
             (F32.toI32 (F32.add startY (F32.mul (F32.fin (p.1 : ℚ)) lineHeight)))
             scale p.2)
         rgba) := by
  subst hfb
  unfold draw_centered_text
  dsimp only
  rw [hparse]
  dsimp only
  rw [if_neg hne]

theorem draw_centered_text_layout_witness :
    rustLines ['a'] ≠ [] ∧
    draw_centered_text (some ()) (fun _ : Unit => some unitFont)
      (fun _ img _ _ _ _ _ => img)
      ⟨1, 1, fun _ _ => ⟨0, 0, 0, 0⟩⟩ ['a'] ⟨255, 0, 0, 255⟩ (F32.fin 0)
      = ⟨1, 1, fun _ _ => ⟨0, 0, 0, 0⟩⟩ :=
  ⟨by decide,
   (draw_centered_text_layout (some ()) (fun _ : Unit => some unitFont)
      (fun _ img _ _ _ _ _ => img) ⟨1, 1, fun _ _ => ⟨0, 0, 0, 0⟩⟩ ['a'] ⟨255, 0, 0, 255⟩
      (F32.fin 0) () unitFont rfl rfl (by decide))⟩

/-- Convert an RgbImage to an RgbaImage with full opacity (embeds
`rgb_to_rgba` from image.rs). -/

theorem rgb_rgba_roundtrip (img : RgbImage) :
    (rgba_to_rgb (rgb_to_rgba img)).width = img.width ∧
    (rgba_to_rgb (rgb_to_rgba img)).height = img.height ∧
    ∀ x y, x < img.width → y < img.height →
      (rgba_to_rgb (rgb_to_rgba img)).pix x y = img.pix x y :=
  ⟨rfl, rfl, fun _ _ _ _ => rfl⟩

theorem rgb_rgba_roundtrip_witness :
    (0 : Nat) < 1 ∧
    (rgba_to_rgb (rgb_to_rgba ⟨1, 1, fun _ _ => ⟨10, 20, 30⟩⟩)).pix 0 0
      = (⟨10, 20, 30⟩ : Rgb) :=
  ⟨Nat.zero_lt_one,
   (rgb_rgba_roundtrip ⟨1, 1, fun _ _ => ⟨10, 20, 30⟩⟩).2.2 0 0 Nat.zero_lt_one Nat.zero_lt_one⟩
